import Mathlib

/-!
Shallow embedding of `parse_veri_bet.py` (sports-betting scraper).

The scraper's core is:
  * two pure text normalizers, `extract_spread` and `extract_price`
    (Python `re`-based);
  * a memoized event-date resolver `get_event_date` built on
    `datetime.strptime("%m-%d-%Y %H:%M:%S")`;
  * a per-row record extractor inside `parse_game_data`, which appends
    records to a shared list and catches exceptions per row;
  * the `__main__` polling loop threading the scraper's cached date.

Machine floats of the source are modelled as exact rationals (`ℚ`); all
the numerals the code manipulates are short decimal literals, for which
this is exact.  Selenium element lookups are modelled by the data they
return: a `Row` carries the texts of the elements each selector yields,
`none` standing for `NoSuchElementException` on a single-element lookup,
and waits that can time out are modelled with `Option`/`Retrieval`.
Python exceptions are modelled with `Except Unit` (the row loop also
needs the list of records appended before a raise, so it uses an
explicit accumulator, see `emitSeq`).
-/

/-- Python whitespace class `\s` (also used by `str.strip`). -/
def pyWS (c : Char) : Bool :=
  c = ' ' ∨ c = '\t' ∨ c = '\n' ∨ c = '\r' ∨ c = '\x0b' ∨ c = '\x0c'

/-- `str.strip()` on a character list. -/
def pyStrip (cs : List Char) : List Char :=
  ((cs.dropWhile pyWS).reverse.dropWhile pyWS).reverse

/-- `str.strip()`. -/
def strip (s : String) : String :=
  String.mk (pyStrip s.data)

/-- `str.upper()` (ASCII, as all league identifiers are ASCII). -/
def pyUpper (s : String) : String :=
  String.mk (s.data.map Char.toUpper)

/-- Numeric value of a digit list (most significant first). -/
def digitsToNat (ds : List Char) : Nat :=
  ds.foldl (fun n c => 10 * n + (c.toNat - 48)) 0

/-- Discrete result of matching the regex `[-+]?\d+(\.\d+)?`:
either no match, a match without a fractional part, or a match
`ids.fds` with integer digits `ids` and fractional digits `fds`.
`neg` records a leading minus sign. -/
inductive NumParse where
  | nomatch
  | whole (neg : Bool) (ids : List Char)
  | dec (neg : Bool) (ids : List Char) (fds : List Char)
deriving DecidableEq

/-- Match `\d+(\.\d+)?` at the head of `cs` (greedy digits, optional
greedy fraction), as Python's `re` does. -/
def numFrom (neg : Bool) (cs : List Char) : NumParse :=
  let ds := cs.takeWhile Char.isDigit
  if ds = [] then .nomatch
  else
    match cs.dropWhile Char.isDigit with
    | '.' :: rest2 =>
      let fs := rest2.takeWhile Char.isDigit
      if fs = [] then .whole neg ds else .dec neg ds fs
    | _ => .whole neg ds

/-- Match `[-+]?\d+(\.\d+)?` at the head of `cs`.  If a sign is present
but not followed by digits, the regex backtracks to the empty sign and
then fails (the sign character is not a digit), so the position yields
no match. -/
def signedNumAt (cs : List Char) : NumParse :=
  match cs with
  | '-' :: rest => numFrom true rest
  | '+' :: rest => numFrom false rest
  | _ => numFrom false cs

/-- Leftmost match of `[-+]?\d+(\.\d+)?` in `cs` (`re.search`). -/
def findNum (cs : List Char) : NumParse :=
  match cs with
  | [] => .nomatch
  | c :: rest =>
    match signedNumAt (c :: rest) with
    | .nomatch => findNum rest
    | r => r

/-- Exact value of a matched numeral. -/
def numValue : NumParse → ℚ
  | .nomatch => 0
  | .whole neg ids =>
    (if neg then -1 else 1) * (digitsToNat ids : ℚ)
  | .dec neg ids fds =>
    (if neg then -1 else 1) *
      ((digitsToNat ids : ℚ) + (digitsToNat fds : ℚ) / (10 : ℚ) ^ fds.length)

/-- `SportsScraper.extract_spread`: value of the first signed decimal
numeral substring, `0.0` when there is none.  (The source's
`try/except (ValueError, AttributeError)` is unreachable once a match
exists, so the function is total with default `0`.) -/
def extract_spread (s : String) : ℚ :=
  match findNum s.data with
  | .nomatch => 0
  | r => numValue r

/-- Match `\(([-+]?\d+)\)` at the head of `cs`, returning the inner
group.  A sign not followed by digits, missing digits, or a missing
closing parenthesis all fail (backtracking cannot help: the shorter
alternatives would place a non-digit under `\d+` or a digit under
`\)`). -/
def priceAt (cs : List Char) : Option (List Char) :=
  match cs with
  | '(' :: rest =>
    match rest with
    | c :: rest2 =>
      if c = '-' ∨ c = '+' then
        match rest2.takeWhile Char.isDigit, rest2.dropWhile Char.isDigit with
        | d :: ds, ')' :: _ => some (c :: d :: ds)
        | _, _ => none
      else
        match rest.takeWhile Char.isDigit, rest.dropWhile Char.isDigit with
        | d :: ds, ')' :: _ => some (d :: ds)
        | _, _ => none
    | [] => none
  | _ => none

/-- Leftmost match of `\(([-+]?\d+)\)` (`re.search`). -/
def findPrice (cs : List Char) : Option (List Char) :=
  match cs with
  | [] => none
  | c :: rest =>
    match priceAt (c :: rest) with
    | some p => some p
    | none => findPrice rest

/-- `SportsScraper.extract_price`: the parenthesized signed integer
without its parentheses, else the stripped input. -/
def extract_price (s : String) : String :=
  match findPrice s.data with
  | some p => String.mk p
  | none => strip s

/-- The `Item` dataclass: one betting-line record. -/
structure Item where
  sport_league : String
  event_date_utc : String
  team1 : String
  team2 : String
  period : String
  line_type : String
  price : String
  side : String
  team : String
  spread : ℚ
  pitcher : String
deriving DecidableEq

/-- Build an `Item` with the dataclass defaults (`spread=0.0` supplied
explicitly where the call site does, `pitcher=""` always). -/
def mkItem (lg dt t1 t2 per lt pr sd tm : String) (sp : ℚ) : Item :=
  ⟨lg, dt, t1, t2, per, lt, pr, sd, tm, sp, ""⟩

/-- A game row, carrying the data the row's element lookups return:
the texts of `a.text-muted` elements, the texts of the moneyline,
spread and total `span.text-muted` columns, the `href` of the league
link (`none` when `find_element` raises `NoSuchElementException`), and
the text of the row's period badge (`none` when absent). -/
structure Row where
  team_names : List String
  moneyline_prices : List String
  spread_prices : List String
  total_prices : List String
  sport_href : Option String
  badge : Option String
deriving DecidableEq

/-- Does `pat` occur at the head of `cs`? -/
def startsWithSeq : List Char → List Char → Bool
  | [], _ => true
  | _ :: _, [] => false
  | p :: ps, c :: cs => p = c && startsWithSeq ps cs

/-- Does `pat` occur anywhere in `cs` (Python `in` on strings)? -/
def containsSeq (pat : List Char) : List Char → Bool
  | [] => pat.isEmpty
  | c :: rest => startsWithSeq pat (c :: rest) || containsSeq pat rest

/-- The suffix of `cs` after the first occurrence of `"f="`, `none`
when there is none. -/
def afterFE : List Char → Option (List Char)
  | [] => none
  | c :: rest =>
    if c = 'f' ∧ rest.take 1 = ['='] then some (rest.drop 1)
    else afterFE rest

/-- Fuelled driver for `lastAfterFE` (structural, so that concrete
evaluation goes through the kernel). -/
def lastAfterFEAux : Nat → List Char → List Char
  | 0, cs => cs
  | Nat.succ n, cs =>
    match afterFE cs with
    | none => cs
    | some rest => lastAfterFEAux n rest

/-- `href.split("f=")[-1]` on a character list: the suffix after the
last occurrence of `"f="` (occurrences of `"f="` cannot overlap, so
Python's left-to-right non-overlapping split ends exactly there), the
whole list when `"f="` does not occur. -/
def lastAfterFE (cs : List Char) : List Char :=
  lastAfterFEAux cs.length cs

/-- Lines 170–175: `sport_league` from the league link's `href`
(`href.split("f=")[-1].upper()`), `"UNKNOWN"` when the link is absent. -/
def sportLeague : Option String → String
  | none => "UNKNOWN"
  | some h => String.mk ((lastAfterFE h.data).map Char.toUpper)

/-- Lines 177–185: the `period` field.  The code first looks the badge
up on the row, then rebinds `period_elem` to a driver-wide lookup of a
badge whose text contains `FINAL` and takes that element's stripped
text; if either lookup raises `NoSuchElementException` the default
`"FULL GAME"` stands.  `finalBadge` is the text the driver-wide lookup
yields (`none` when it raises). -/
def rowPeriod (finalBadge : Option String) (r : Row) : String :=
  match r.badge with
  | none => "FULL GAME"
  | some _ =>
    match finalBadge with
    | none => "FULL GAME"
    | some t => strip t

/-- `"SOCCER" in sport_league`. -/
def soccerIn (league : String) : Bool :=
  containsSeq "SOCCER".data league.data

/-- `moneyline_prices[3].text.replace("DRAW\n", "")`: remove every
(left-to-right, non-overlapping) occurrence of `"DRAW\n"`. -/
def stripDraw : List Char → List Char
  | 'D' :: 'R' :: 'A' :: 'W' :: '\n' :: rest => stripDraw rest
  | c :: rest => c :: stripDraw rest
  | [] => []

/-- `list[i]` with Python semantics: `IndexError` when out of range. -/
def getE (l : List String) (i : Nat) : Except Unit String :=
  match l[i]? with
  | some v => Except.ok v
  | none => Except.error ()

/-- Status of one row after the `try/except` of lines 164–230. -/
inductive RowStatus where
  | skipped
  | completed
  | aborted
deriving DecidableEq

/-- The sequence of record constructions lines 193–224 attempt for a
row that passed the precondition check, in program order.  Each entry
evaluates the indexing of its arguments left to right and fails
(Python `IndexError`) when an index is out of range, exactly where the
source would raise while building that `Item`. -/
def rowEmissions (sport_league event_date team1 team2 period : String)
    (ml sp tot : List String) : List (Except Unit Item) :=
  (if 2 ≤ ml.length then
    [do
      let m1 ← getE ml 1
      let s1 ← getE sp 1
      pure (mkItem sport_league event_date team1 team2 period "moneyline"
        (extract_price m1) team1 team1 (extract_spread s1)),
     do
      let m2 ← getE ml 2
      let s2 ← getE sp 2
      pure (mkItem sport_league event_date team1 team2 period "moneyline"
        (extract_price m2) team2 team2 (extract_spread s2))]
   else []) ++
  (if soccerIn sport_league ∧ 4 ≤ ml.length then
    [do
      let m3 ← getE ml 3
      pure (mkItem sport_league event_date team1 team2 period "moneyline"
        (strip (String.mk (stripDraw m3.data))) "draw" "draw" 0)]
   else []) ++
  (if 2 ≤ sp.length then
    [do
      let s1 ← getE sp 1
      pure (mkItem sport_league event_date team1 team2 period "spread"
        (extract_price s1) team1 team1 (extract_spread s1)),
     do
      let s2 ← getE sp 2
      pure (mkItem sport_league event_date team1 team2 period "spread"
        (extract_price s2) team2 team2 (extract_spread s2))]
   else []) ++
  (if 2 ≤ tot.length then
    [do
      let t1 ← getE tot 1
      let s1 ← getE sp 1
      pure (mkItem sport_league event_date team1 team2 period "over/under"
        (extract_price t1) "over" "total" (extract_spread s1)),
     do
      let t2 ← getE tot 2
      let s2 ← getE sp 2
      pure (mkItem sport_league event_date team1 team2 period "over/under"
        (extract_price t2) "under" "total" (extract_spread s2))]
   else [])

/-- Run the emissions in order against the shared `items` list: each
successful construction is appended; the first failure raises, which
the per-row handler catches, keeping everything already appended. -/
def emitSeq : List (Except Unit Item) → List Item × RowStatus
  | [] => ([], RowStatus.completed)
  | e :: rest =>
    match e with
    | Except.error _ => ([], RowStatus.aborted)
    | Except.ok it =>
      match emitSeq rest with
      | (items, st) => (it :: items, st)

/-- One iteration of the row loop (lines 164–230): the element lookups,
the league and period defaults, the precondition check of line 187
(skip with a warning), then the emission sequence guarded by the
per-row `except` of line 228.  Returns the records this row appended
to the cycle's list, together with how the row ended. -/
def processRow (finalBadge : Option String) (event_date : String) (r : Row) :
    List Item × RowStatus :=
  let sport_league := sportLeague r.sport_href
  let period := rowPeriod finalBadge r
  if r.team_names.length < 2 ∨ r.moneyline_prices.length < 2 then
    ([], RowStatus.skipped)
  else
    let team1 := r.team_names.getD 0 ""
    let team2 := r.team_names.getD 1 ""
    emitSeq (rowEmissions sport_league event_date team1 team2 period
      r.moneyline_prices r.spread_prices r.total_prices)

/-- The row loop over all rows: every row's appended records stay in
the cycle's list, in row order, whatever the row's status. -/
def extractRows (finalBadge : Option String) (event_date : String) :
    List Row → List Item
  | [] => []
  | r :: rest =>
    (processRow finalBadge event_date r).1 ++ extractRows finalBadge event_date rest

/-- A parsed `datetime` (what `strptime` constructs). -/
structure PDateTime where
  year : Nat
  month : Nat
  day : Nat
  hour : Nat
  minute : Nat
  second : Nat
deriving DecidableEq

/-- Numeric value of one digit character. -/
def digitVal (c : Char) : Nat := c.toNat - 48

/-- `%m` of CPython's `_strptime`: ordered alternatives
`1[0-2] | 0[1-9] | [1-9]`.  The continuation after the field is a
non-digit literal, so committing to the first alternative that
matches locally agrees with full regex backtracking. -/
def pMonth : List Char → Option (Nat × List Char)
  | c1 :: c2 :: rest =>
    if c1 = '1' ∧ ('0' ≤ c2 ∧ c2 ≤ '2') then some (10 + digitVal c2, rest)
    else if c1 = '0' ∧ ('1' ≤ c2 ∧ c2 ≤ '9') then some (digitVal c2, rest)
    else if '1' ≤ c1 ∧ c1 ≤ '9' then some (digitVal c1, c2 :: rest)
    else none
  | [c1] => if '1' ≤ c1 ∧ c1 ≤ '9' then some (digitVal c1, []) else none
  | [] => none

/-- `%d`: `3[01] | [12]\d | 0[1-9] | [1-9]`. -/
def pDay : List Char → Option (Nat × List Char)
  | c1 :: c2 :: rest =>
    if c1 = '3' ∧ (c2 = '0' ∨ c2 = '1') then some (30 + digitVal c2, rest)
    else if (c1 = '1' ∨ c1 = '2') ∧ c2.isDigit then
      some (10 * digitVal c1 + digitVal c2, rest)
    else if c1 = '0' ∧ ('1' ≤ c2 ∧ c2 ≤ '9') then some (digitVal c2, rest)
    else if '1' ≤ c1 ∧ c1 ≤ '9' then some (digitVal c1, c2 :: rest)
    else none
  | [c1] => if '1' ≤ c1 ∧ c1 ≤ '9' then some (digitVal c1, []) else none
  | [] => none

/-- `%Y`: exactly four digits. -/
def pYear : List Char → Option (Nat × List Char)
  | a :: b :: c :: d :: rest =>
    if a.isDigit ∧ b.isDigit ∧ c.isDigit ∧ d.isDigit then
      some (1000 * digitVal a + 100 * digitVal b + 10 * digitVal c + digitVal d,
        rest)
    else none
  | _ => none

/-- `%H`: `2[0-3] | [0-1]\d | \d`. -/
def pHour : List Char → Option (Nat × List Char)
  | c1 :: c2 :: rest =>
    if c1 = '2' ∧ ('0' ≤ c2 ∧ c2 ≤ '3') then some (20 + digitVal c2, rest)
    else if (c1 = '0' ∨ c1 = '1') ∧ c2.isDigit then
      some (10 * digitVal c1 + digitVal c2, rest)
    else if c1.isDigit then some (digitVal c1, c2 :: rest)
    else none
  | [c1] => if c1.isDigit then some (digitVal c1, []) else none
  | [] => none

/-- `%M`: `[0-5]\d | \d`. -/
def pMinute : List Char → Option (Nat × List Char)
  | c1 :: c2 :: rest =>
    if ('0' ≤ c1 ∧ c1 ≤ '5') ∧ c2.isDigit then
      some (10 * digitVal c1 + digitVal c2, rest)
    else if c1.isDigit then some (digitVal c1, c2 :: rest)
    else none
  | [c1] => if c1.isDigit then some (digitVal c1, []) else none
  | [] => none

/-- `%S`: `6[0-1] | [0-5]\d | \d`. -/
def pSecond : List Char → Option (Nat × List Char)
  | c1 :: c2 :: rest =>
    if c1 = '6' ∧ (c2 = '0' ∨ c2 = '1') then some (60 + digitVal c2, rest)
    else if ('0' ≤ c1 ∧ c1 ≤ '5') ∧ c2.isDigit then
      some (10 * digitVal c1 + digitVal c2, rest)
    else if c1.isDigit then some (digitVal c1, c2 :: rest)
    else none
  | [c1] => if c1.isDigit then some (digitVal c1, []) else none
  | [] => none

/-- A literal character of the format string. -/
def pLit (ch : Char) : List Char → Option (List Char)
  | c :: rest => if c = ch then some rest else none
  | [] => none

/-- Whitespace in the format becomes `\s+` (greedy; the following
field starts with a digit, so greediness never needs backtracking). -/
def pSpaces : List Char → Option (List Char)
  | c :: rest => if pyWS c then some (rest.dropWhile pyWS) else none
  | [] => none

/-- Gregorian leap year (as `datetime` validates). -/
def isLeap (y : Nat) : Bool := (y % 4 = 0 ∧ ¬ y % 100 = 0) ∨ y % 400 = 0

/-- Days in a month, for `datetime`'s day-range validation. -/
def daysInMonth (y m : Nat) : Nat :=
  if m = 2 then (if isLeap y then 29 else 28)
  else if m = 4 ∨ m = 6 ∨ m = 9 ∨ m = 11 then 30
  else 31

/-- `datetime.datetime.strptime(s, "%m-%d-%Y %H:%M:%S")`: the regex
match must consume the whole string (otherwise CPython raises for
unconverted data), and the `datetime` constructor then validates
`MINYEAR ≤ year`, the day against the month, and `second ≤ 59`.
`none` models the `ValueError` the call raises otherwise. -/
def strptime_mdY_HMS (cs : List Char) : Option PDateTime := do
  let (m, cs) ← pMonth cs
  let cs ← pLit '-' cs
  let (d, cs) ← pDay cs
  let cs ← pLit '-' cs
  let (y, cs) ← pYear cs
  let cs ← pSpaces cs
  let (h, cs) ← pHour cs
  let cs ← pLit ':' cs
  let (mi, cs) ← pMinute cs
  let cs ← pLit ':' cs
  let (s, cs) ← pSecond cs
  if cs = [] ∧ 1 ≤ y ∧ d ≤ daysInMonth y m ∧ s ≤ 59 then
    some ⟨y, m, d, h, mi, s⟩
  else none

/-- Zero-padded two-digit decimal. -/
def pad2 (n : Nat) : String := if n < 10 then "0" ++ toString n else toString n

/-- Zero-padded four-digit decimal. -/
def pad4 (n : Nat) : String :=
  if n < 10 then "000" ++ toString n
  else if n < 100 then "00" ++ toString n
  else if n < 1000 then "0" ++ toString n
  else toString n

/-- `strftime("%Y-%m-%dT%H:%M:%S+00:00")`. -/
def fmtISO (t : PDateTime) : String :=
  pad4 t.year ++ "-" ++ pad2 t.month ++ "-" ++ pad2 t.day ++ "T" ++
    pad2 t.hour ++ ":" ++ pad2 t.minute ++ ":" ++ pad2 t.second ++ "+00:00"

/-- Result of waiting for the `datepicker` control and reading its
`value` attribute: the wait can time out, and `get_attribute` yields
`none` or a string. -/
inductive Retrieval where
  | timeout
  | value (v : Option String)
deriving DecidableEq

/-- The clock values the resolver reads, as the strings the two
`strftime` calls would produce: `nowHMS` is
`datetime.now().strftime("%H:%M:%S")` and `utcISO` is
`datetime.utcnow().strftime("%Y-%m-%dT%H:%M:%S+00:00")`. -/
structure Clock where
  nowHMS : String
  utcISO : String
deriving DecidableEq

/-- Python truthiness of `self.cached_event_date` (`None` and `""` are
falsy). -/
def truthy : Option String → Bool
  | none => false
  | some s => !(s == "")

/-- `SportsScraper.get_event_date` (lines 126–152), with the cached
field threaded explicitly.  Returns the string the method returns and
the new cache; `Except.error` models an exception propagating out of
the method — only `TimeoutException` is caught there, so the
`ValueError` of an unparseable date escapes. -/
def get_event_date (clk : Clock) (retr : Retrieval) (cached : Option String) :
    Except Unit (String × Option String) :=
  if truthy cached then Except.ok (cached.getD "", cached)
  else
    match retr with
    | Retrieval.timeout => Except.ok (clk.utcISO, some clk.utcISO)
    | Retrieval.value v =>
      let raw := v.getD ""
      if raw = "" then Except.ok (clk.utcISO, some clk.utcISO)
      else
        match strptime_mdY_HMS ((raw ++ " " ++ clk.nowHMS)).data with
        | none => Except.error ()
        | some dt => Except.ok (fmtISO dt, some (fmtISO dt))

/-- One cycle's external world: the date-control retrieval, the clock,
the row-set wait (`none` is a `TimeoutException`), and the driver-wide
`FINAL`-badge lookup feeding `rowPeriod`. -/
structure Env where
  clock : Clock
  retrieval : Retrieval
  rowsResult : Option (List Row)
  finalBadge : Option String
deriving DecidableEq

/-- `SportsScraper.parse_game_data` (lines 154–235): resolve the event
date, wait for the rows, run the row loop; the outer `except` catches
only `TimeoutException` (returning the records accumulated so far,
i.e. `[]`), so any other exception — in particular the date
resolver's `ValueError` — propagates out. -/
def parse_game_data (env : Env) (cache : Option String) :
    Except Unit (List Item × Option String) :=
  match get_event_date env.clock env.retrieval cache with
  | Except.error e => Except.error e
  | Except.ok (date, cache2) =>
    match env.rowsResult with
    | none => Except.ok ([], cache2)
    | some rows => Except.ok (extractRows env.finalBadge date rows, cache2)

/-- The `__main__` loop (lines 245–257) over a finite trace of cycle
environments: each iteration navigates to `BASE_URL` (which touches no
scraper state) and calls `parse_game_data`; the scraper's
`cached_event_date` is the only state threaded through.  Returns each
cycle's record list and the final cache. -/
def runLoop (envs : List Env) (cache : Option String) :
    Except Unit (List (List Item) × Option String) :=
  match envs with
  | [] => Except.ok ([], cache)
  | e :: rest =>
    match parse_game_data e cache with
    | Except.error u => Except.error u
    | Except.ok (items, cache2) =>
      match runLoop rest cache2 with
      | Except.error u => Except.error u
      | Except.ok (outs, cf) => Except.ok (items :: outs, cf)

/-! Concrete inputs used by counterexamples and witnesses. -/

/-- A row passing the precondition (2 team names, 2 moneyline texts)
whose second moneyline record raises `IndexError` at
`moneyline_prices[2]` after the first was appended. -/
def cRow1 : Row :=
  ⟨["A", "B"], ["H", "(-110)"], ["H", "-3.5 (-110)", "+3.5 (-110)"], [],
    some "betting-trends?f=nfl", none⟩

/-- A soccer row with four moneyline texts but only two spread texts:
`spread_prices[2]` raises inside the second moneyline record, before
the draw block is reached. -/
def socRow : Row :=
  ⟨["A", "B"], ["H", "(-110)", "(+130)", "DRAW\n(+240)"], ["H", "-3.5"], [],
    some "betting-trends?f=soccer-epl", none⟩

/-- A soccer row that completes: 2 moneyline + 1 draw + 2 spread. -/
def fullSocRow : Row :=
  ⟨["A", "B"], ["H", "(-110)", "(+130)", "DRAW\n(+240)"],
    ["H", "-1 (-105)", "+1 (-115)"], [],
    some "betting-trends?f=soccer-epl", none⟩

/-- A complete non-soccer row whose badge text is `"1ST HALF"`. -/
def badgeRow : Row :=
  ⟨["A", "B"], ["H", "(-110)", "(+130)"], ["H", "-1 (-105)", "+1 (-115)"], [],
    none, some "1ST HALF"⟩

/-- A row with a single team-name element. -/
def oneTeamRow : Row :=
  ⟨["A"], ["H", "(-110)", "(+130)"], [], [], none, none⟩

/-- A complete non-soccer row: 2 moneyline + 2 spread records. -/
def simpleRow : Row :=
  ⟨["A", "B"], ["H", "(-110)", "(+130)"], ["H", "-1 (-105)", "+1 (-115)"], [],
    some "betting-trends?f=nfl", none⟩

/-- Clock of the first example cycle. -/
def clk1 : Clock := ⟨"12:00:00", "2025-06-01T00:00:00+00:00"⟩

/-- Clock of the second example cycle. -/
def clk2 : Clock := ⟨"13:00:00", "2025-06-02T00:00:00+00:00"⟩

/-- First example cycle: the date control reads `01-02-2025`. -/
def env1 : Env := ⟨clk1, Retrieval.value (some "01-02-2025"), some [simpleRow], none⟩

/-- Second example cycle, after a new navigation: the control now
reads `01-03-2025`. -/
def env2 : Env := ⟨clk2, Retrieval.value (some "01-03-2025"), some [simpleRow], none⟩

/-! Helper lemmas. -/

/-- If `"f="` does not occur in `cs`, `afterFE` finds nothing. -/
theorem afterFE_eq_none (cs : List Char)
    (h : containsSeq ['f', '='] cs = false) : afterFE cs = none := by
  induction cs with
  | nil => rfl
  | cons c rest ih =>
    rw [containsSeq, Bool.or_eq_false_iff] at h
    obtain ⟨h1, h2⟩ := h
    rw [afterFE]
    by_cases hc : c = 'f' ∧ rest.take 1 = ['=']
    · exfalso
      obtain ⟨hcf, htake⟩ := hc
      subst hcf
      cases rest with
      | nil => simp at htake
      | cons r0 rtl =>
        simp at htake
        subst htake
        simp [startsWithSeq] at h1
    · rw [if_neg hc]
      exact ih h2

/-- With no occurrence of `"f="`, the fuelled last-piece scan is the
identity. -/
theorem lastAfterFEAux_eq_self (n : Nat) (cs : List Char)
    (h : afterFE cs = none) : lastAfterFEAux n cs = cs := by
  cases n with
  | zero => rfl
  | succ m => rw [lastAfterFEAux, h]

/-- With no occurrence of `"f="`, `split("f=")[-1]` is the whole
string. -/
theorem lastAfterFE_eq_self (cs : List Char)
    (h : containsSeq ['f', '='] cs = false) : lastAfterFE cs = cs :=
  lastAfterFEAux_eq_self cs.length cs (afterFE_eq_none cs h)

/-- C10: with the league link absent, `sport_league` is `"UNKNOWN"`;
with the link present but no `"f="` in its `href`,
`href.split("f=")[-1]` is the whole `href`, so `sport_league` is the
entire `href` uppercased — the `"UNKNOWN"` default is reserved for the
absent link. -/
theorem C10_league_href_no_separator :
    sportLeague none = "UNKNOWN" ∧
    (∀ h : String, containsSeq ['f', '='] h.data = false →
      sportLeague (some h) = pyUpper h) := by
  refine ⟨rfl, ?_⟩
  intro h hocc
  rw [sportLeague, lastAfterFE_eq_self h.data hocc, pyUpper]

/-- C10 witness: the theorem applied to an `href` without `"f="`. -/
theorem C10_league_href_no_separator_witness :
    sportLeague (some "spread-charts") = pyUpper "spread-charts" ∧
    pyUpper "spread-charts" = "SPREAD-CHARTS" :=
  ⟨C10_league_href_no_separator.2 "spread-charts" (by decide), by decide⟩

/-- C6: `extract_spread` is total (a Lean function), returns the value
of the first signed decimal numeral substring when one matches and `0`
otherwise, and on the spec's examples returns `3.5`, `0.0` and
`-7.0`. -/
theorem C6_extract_spread_ok :
    extract_spread "+3.5 pts" = 7/2 ∧
    extract_spread "no number" = 0 ∧
    extract_spread "-7" = -7 ∧
    (∀ s : String, findNum s.data = .nomatch → extract_spread s = 0) ∧
    (∀ s : String, findNum s.data ≠ .nomatch →
      extract_spread s = numValue (findNum s.data)) := by
  refine ⟨?_, ?_, ?_, ?_, ?_⟩
  · have h : findNum "+3.5 pts".data = .dec false ['3'] ['5'] := by decide
    have h3 : digitsToNat ['3'] = 3 := by decide
    have h5 : digitsToNat ['5'] = 5 := by decide
    simp [extract_spread, h, numValue, h3, h5]
    norm_num
  · have h : findNum "no number".data = .nomatch := by decide
    simp [extract_spread, h]
  · have h : findNum "-7".data = .whole true ['7'] := by decide
    have h7 : digitsToNat ['7'] = 7 := by decide
    simp [extract_spread, h, numValue, h7]
  · intro s h
    simp [extract_spread, h]
  · intro s h
    unfold extract_spread
    match hf : findNum s.data with
    | .nomatch => exact absurd hf h
    | .whole n i => simp [numValue]
    | .dec n i f => simp [numValue]

/-- C6 witness: the theorem applied at concrete inputs. -/
theorem C6_extract_spread_ok_witness :
    extract_spread "+3.5 pts" = 7/2 ∧ extract_spread "xx" = 0 :=
  ⟨C6_extract_spread_ok.1, C6_extract_spread_ok.2.2.2.1 "xx" (by decide)⟩

/-- C7: `extract_price` is total, returns the parenthesized signed
integer without parentheses when one occurs and the stripped input
otherwise, and on the spec's examples returns `"-110"` and `"even"`. -/
theorem C7_extract_price_ok :
    extract_price "(-110)" = "-110" ∧
    extract_price "even" = "even" ∧
    (∀ s : String, findPrice s.data = none → extract_price s = strip s) ∧
    (∀ s : String, ∀ p, findPrice s.data = some p →
      extract_price s = String.mk p) := by
  refine ⟨by decide, by decide, ?_, ?_⟩
  · intro s h
    simp [extract_price, h]
  · intro s p h
    simp [extract_price, h]

/-- C7 witness: the theorem applied at concrete inputs. -/
theorem C7_extract_price_ok_witness :
    extract_price "(-110)" = "-110" ∧ extract_price " hi " = "hi" :=
  ⟨C7_extract_price_ok.1, by
    have h := C7_extract_price_ok.2.2.1 " hi " (by decide)
    simpa using h⟩

/-- A row passing the precondition with exactly two moneyline texts
appends the first moneyline record and then raises `IndexError` at
`moneyline_prices[2]`: one partial record, row aborted. -/
theorem processRow_ml2 (fb : Option String) (d : String) (r : Row)
    (h2 : 2 ≤ r.team_names.length) (hm : r.moneyline_prices.length = 2)
    (hs : 2 ≤ r.spread_prices.length) :
    processRow fb d r =
      ([mkItem (sportLeague r.sport_href) d (r.team_names.getD 0 "")
          (r.team_names.getD 1 "") (rowPeriod fb r) "moneyline"
          (extract_price (r.moneyline_prices.getD 1 ""))
          (r.team_names.getD 0 "") (r.team_names.getD 0 "")
          (extract_spread (r.spread_prices.getD 1 ""))],
        RowStatus.aborted) := by
  obtain ⟨tn, ml, sp, tot, href, badge⟩ := r
  simp only at h2 hm hs ⊢
  rcases tn with _ | ⟨t0, tn⟩
  · simp at h2
  rcases tn with _ | ⟨t1, tn⟩
  · simp at h2
  rcases ml with _ | ⟨m0, ml⟩
  · simp at hm
  rcases ml with _ | ⟨m1, ml⟩
  · simp at hm
  rcases ml with _ | ⟨m2, ml⟩
  swap
  · simp at hm
  rcases sp with _ | ⟨s0, sp⟩
  · simp at hs
  rcases sp with _ | ⟨s1, sp⟩
  · simp at hs
  simp only [processRow]
  rw [if_neg (by simp)]
  simp only [rowEmissions]
  rw [if_pos (by simp)]
  have hdr : ¬ (soccerIn (sportLeague href) ∧
      4 ≤ (List.length [m0, m1])) := by
    simp
  rw [if_neg hdr, if_pos (show 2 ≤ (s0 :: s1 :: sp).length by simp)]
  by_cases htot : 2 ≤ tot.length
  · rw [if_pos htot]
    simp [getE, emitSeq, Bind.bind, Except.bind, Pure.pure, Except.pure, List.getD]
  · rw [if_neg htot]
    simp [getE, emitSeq, Bind.bind, Except.bind, Pure.pure, Except.pure, List.getD]

/-- Full characterization of a row with ≥2 team names, ≥3 moneyline
texts and ≥3 spread texts: the two moneyline records, the draw record
exactly under the code's guard, the two spread records, and the
over/under records — two when a third total text exists, one followed
by an `IndexError` (row aborted) when exactly two exist, none when
fewer than two. -/
theorem processRow_full (fb : Option String) (d : String) (r : Row)
    (h2 : 2 ≤ r.team_names.length) (hm : 3 ≤ r.moneyline_prices.length)
    (hs : 3 ≤ r.spread_prices.length) :
    processRow fb d r =
      ([mkItem (sportLeague r.sport_href) d (r.team_names.getD 0 "")
          (r.team_names.getD 1 "") (rowPeriod fb r) "moneyline"
          (extract_price (r.moneyline_prices.getD 1 ""))
          (r.team_names.getD 0 "") (r.team_names.getD 0 "")
          (extract_spread (r.spread_prices.getD 1 "")),
        mkItem (sportLeague r.sport_href) d (r.team_names.getD 0 "")
          (r.team_names.getD 1 "") (rowPeriod fb r) "moneyline"
          (extract_price (r.moneyline_prices.getD 2 ""))
          (r.team_names.getD 1 "") (r.team_names.getD 1 "")
          (extract_spread (r.spread_prices.getD 2 ""))] ++
       (if soccerIn (sportLeague r.sport_href) ∧ 4 ≤ r.moneyline_prices.length
        then [mkItem (sportLeague r.sport_href) d (r.team_names.getD 0 "")
            (r.team_names.getD 1 "") (rowPeriod fb r) "moneyline"
            (strip (String.mk (stripDraw (r.moneyline_prices.getD 3 "").data)))
            "draw" "draw" 0]
        else []) ++
       [mkItem (sportLeague r.sport_href) d (r.team_names.getD 0 "")
          (r.team_names.getD 1 "") (rowPeriod fb r) "spread"
          (extract_price (r.spread_prices.getD 1 ""))
          (r.team_names.getD 0 "") (r.team_names.getD 0 "")
          (extract_spread (r.spread_prices.getD 1 "")),
        mkItem (sportLeague r.sport_href) d (r.team_names.getD 0 "")
          (r.team_names.getD 1 "") (rowPeriod fb r) "spread"
          (extract_price (r.spread_prices.getD 2 ""))
          (r.team_names.getD 1 "") (r.team_names.getD 1 "")
          (extract_spread (r.spread_prices.getD 2 ""))] ++
       (if 3 ≤ r.total_prices.length then
          [mkItem (sportLeague r.sport_href) d (r.team_names.getD 0 "")
            (r.team_names.getD 1 "") (rowPeriod fb r) "over/under"
            (extract_price (r.total_prices.getD 1 "")) "over" "total"
            (extract_spread (r.spread_prices.getD 1 "")),
           mkItem (sportLeague r.sport_href) d (r.team_names.getD 0 "")
            (r.team_names.getD 1 "") (rowPeriod fb r) "over/under"
            (extract_price (r.total_prices.getD 2 "")) "under" "total"
            (extract_spread (r.spread_prices.getD 2 ""))]
        else if 2 ≤ r.total_prices.length then
          [mkItem (sportLeague r.sport_href) d (r.team_names.getD 0 "")
            (r.team_names.getD 1 "") (rowPeriod fb r) "over/under"
            (extract_price (r.total_prices.getD 1 "")) "over" "total"
            (extract_spread (r.spread_prices.getD 1 ""))]
        else []),
       if 2 ≤ r.total_prices.length ∧ r.total_prices.length < 3 then
         RowStatus.aborted
       else RowStatus.completed) := by
  obtain ⟨tn, ml, sp, tot, href, badge⟩ := r
  simp only at h2 hm hs ⊢
  rcases tn with _ | ⟨t0, tn⟩
  · simp at h2
  rcases tn with _ | ⟨t1, tn⟩
  · simp at h2
  rcases ml with _ | ⟨m0, ml⟩
  · simp at hm
  rcases ml with _ | ⟨m1, ml⟩
  · simp at hm
  rcases ml with _ | ⟨m2, ml⟩
  · simp at hm
  rcases sp with _ | ⟨s0, sp⟩
  · simp at hs
  rcases sp with _ | ⟨s1, sp⟩
  · simp at hs
  rcases sp with _ | ⟨s2, sp⟩
  · simp at hs
  simp only [processRow]
  rw [if_neg (by simp)]
  simp only [rowEmissions]
  have hml2 : 2 ≤ (m0 :: m1 :: m2 :: ml).length := by
    simp only [List.length_cons]; omega
  have hsp2 : 2 ≤ (s0 :: s1 :: s2 :: sp).length := by
    simp only [List.length_cons]; omega
  simp only [if_pos hml2, if_pos hsp2]
  by_cases hdr : soccerIn (sportLeague href) = true ∧
      4 ≤ (m0 :: m1 :: m2 :: ml).length
  · rcases ml with _ | ⟨m3, ml⟩
    · exfalso
      obtain ⟨hsoc, hml4⟩ := hdr
      simp at hml4
    simp only [if_pos hdr]
    rcases tot with _ | ⟨u0, tot⟩
    · simp [getE, emitSeq, Bind.bind, Except.bind, Pure.pure, Except.pure,
        List.getD]
    rcases tot with _ | ⟨u1, tot⟩
    · simp [getE, emitSeq, Bind.bind, Except.bind, Pure.pure, Except.pure,
        List.getD]
    rcases tot with _ | ⟨u2, tot⟩
    · simp [getE, emitSeq, Bind.bind, Except.bind, Pure.pure, Except.pure,
        List.getD]
    have hA : 3 ≤ (u0 :: u1 :: u2 :: tot).length := by
      simp only [List.length_cons]; omega
    have hC : ¬(2 ≤ (u0 :: u1 :: u2 :: tot).length ∧
        (u0 :: u1 :: u2 :: tot).length < 3) := by
      simp only [List.length_cons]; omega
    simp only [if_pos hA, if_neg hC, if_pos (show
      2 ≤ (u0 :: u1 :: u2 :: tot).length by simp only [List.length_cons]; omega)]
    simp [getE, emitSeq, Bind.bind, Except.bind, Pure.pure, Except.pure,
      List.getD]
  · simp only [if_neg hdr]
    rcases tot with _ | ⟨u0, tot⟩
    · simp [getE, emitSeq, Bind.bind, Except.bind, Pure.pure, Except.pure,
        List.getD]
    rcases tot with _ | ⟨u1, tot⟩
    · simp [getE, emitSeq, Bind.bind, Except.bind, Pure.pure, Except.pure,
        List.getD]
    rcases tot with _ | ⟨u2, tot⟩
    · simp [getE, emitSeq, Bind.bind, Except.bind, Pure.pure, Except.pure,
        List.getD]
    have hA : 3 ≤ (u0 :: u1 :: u2 :: tot).length := by
      simp only [List.length_cons]; omega
    have hC : ¬(2 ≤ (u0 :: u1 :: u2 :: tot).length ∧
        (u0 :: u1 :: u2 :: tot).length < 3) := by
      simp only [List.length_cons]; omega
    simp only [if_pos hA, if_neg hC, if_pos (show
      2 ≤ (u0 :: u1 :: u2 :: tot).length by simp only [List.length_cons]; omega)]
    simp [getE, emitSeq, Bind.bind, Except.bind, Pure.pure, Except.pure,
      List.getD]

/-- C1 counterexample: `cRow1` passes the precondition check (2 team
names, 2 moneyline texts), an exception is then raised while
processing it (`IndexError` at `moneyline_prices[2]`), yet the row
contributes one record — the already-appended first moneyline record —
to the cycle's output, not zero. -/
theorem C1_partial_row_counterexample :
    2 ≤ cRow1.team_names.length ∧ 2 ≤ cRow1.moneyline_prices.length ∧
    (processRow none "D" cRow1).2 = RowStatus.aborted ∧
    (processRow none "D" cRow1).1.length = 1 := by decide

/-- C1 amended: an exception raised while processing a row is caught
and extraction continues with the next row, but the records the row
appended before the exception remain in the cycle's output — a row
may contribute a partial prefix of its records, not necessarily
zero. -/
theorem C1_caught_rows_continue (fb : Option String) (d : String)
    (pre : List Row) (r : Row) (post : List Row) :
    extractRows fb d (pre ++ r :: post) =
      extractRows fb d pre ++ (processRow fb d r).1 ++ extractRows fb d post := by
  induction pre with
  | nil => simp [extractRows]
  | cons p pre ih => simp [extractRows, ih]

/-- C2 counterexample: `cRow1` passes the precondition (2 team names,
2 moneyline texts, and 3 ≥ 2 spread texts), yet moneyline extraction
emits one record rather than two, and spread extraction emits zero
records although two spread-price entries exist. -/
theorem C2_qualifying_row_counterexample :
    2 ≤ cRow1.team_names.length ∧ 2 ≤ cRow1.moneyline_prices.length ∧
    2 ≤ cRow1.spread_prices.length ∧
    (processRow none "D" cRow1).1.map (fun i => (i.line_type, i.side)) =
      [("moneyline", "A")] := by decide

/-- C2 amended: for a row with ≥2 team names, ≥3 moneyline texts and
≥3 spread texts (the indices the code actually touches), the emitted
records are exactly: 2 moneyline team records; 1 draw record iff the
league contains `SOCCER` and a 4th moneyline entry exists; 2 spread
records; and 2 over/under records when ≥3 total entries exist, a
single partial `over` record when exactly 2 exist (the `under` record
raises), and none when fewer than 2 exist. -/
theorem C2_market_counts_amended (fb : Option String) (d : String) (r : Row)
    (h2 : 2 ≤ r.team_names.length) (hm : 3 ≤ r.moneyline_prices.length)
    (hs : 3 ≤ r.spread_prices.length) :
    (processRow fb d r).1.map (fun i => (i.line_type, i.side, i.team)) =
      [("moneyline", r.team_names.getD 0 "", r.team_names.getD 0 ""),
       ("moneyline", r.team_names.getD 1 "", r.team_names.getD 1 "")] ++
      (if soccerIn (sportLeague r.sport_href) ∧ 4 ≤ r.moneyline_prices.length
       then [("moneyline", "draw", "draw")] else []) ++
      [("spread", r.team_names.getD 0 "", r.team_names.getD 0 ""),
       ("spread", r.team_names.getD 1 "", r.team_names.getD 1 "")] ++
      (if 3 ≤ r.total_prices.length then
        [("over/under", "over", "total"), ("over/under", "under", "total")]
       else if 2 ≤ r.total_prices.length then [("over/under", "over", "total")]
       else []) := by
  rw [processRow_full fb d r h2 hm hs]
  by_cases hdr : soccerIn (sportLeague r.sport_href) = true ∧
      4 ≤ r.moneyline_prices.length
  · simp only [if_pos hdr]
    by_cases h3t : 3 ≤ r.total_prices.length
    · simp only [if_pos h3t]
      simp [mkItem]
    · simp only [if_neg h3t]
      by_cases h2t : 2 ≤ r.total_prices.length
      · simp only [if_pos h2t]
        simp [mkItem]
      · simp only [if_neg h2t]
        simp [mkItem]
  · simp only [if_neg hdr]
    by_cases h3t : 3 ≤ r.total_prices.length
    · simp only [if_pos h3t]
      simp [mkItem]
    · simp only [if_neg h3t]
      by_cases h2t : 2 ≤ r.total_prices.length
      · simp only [if_pos h2t]
        simp [mkItem]
      · simp only [if_neg h2t]
        simp [mkItem]

/-- C2 witness: the amended theorem applied to a complete soccer row
(4 moneyline texts, 3 spread texts, no totals): 2 moneyline records,
1 draw, 2 spreads. -/
theorem C2_market_counts_amended_witness :
    (processRow none "D" fullSocRow).1.map
        (fun i => (i.line_type, i.side, i.team)) =
      [("moneyline", "A", "A"), ("moneyline", "B", "B"),
       ("moneyline", "draw", "draw"),
       ("spread", "A", "A"), ("spread", "B", "B")] := by
  have h := C2_market_counts_amended none "D" fullSocRow
    (by decide) (by decide) (by decide)
  rw [h]
  decide

/-- C8: a row with fewer than two team-name texts or fewer than two
moneyline texts is skipped with a warning: it yields the empty record
list (status `skipped`, nothing raised), and the loop's output over
the remaining rows is unchanged. -/
theorem C8_missing_data_skip (fb : Option String) (d : String) (r : Row)
    (rest : List Row)
    (h : r.team_names.length < 2 ∨ r.moneyline_prices.length < 2) :
    processRow fb d r = ([], RowStatus.skipped) ∧
    extractRows fb d (r :: rest) = extractRows fb d rest := by
  have h1 : processRow fb d r = ([], RowStatus.skipped) := by
    simp only [processRow]
    rw [if_pos h]
  exact ⟨h1, by simp [extractRows, h1]⟩

/-- C8 witness: the theorem applied to a row with one team name. -/
theorem C8_missing_data_skip_witness :
    processRow none "D" oneTeamRow = ([], RowStatus.skipped) ∧
    extractRows none "D" (oneTeamRow :: []) = extractRows none "D" [] :=
  C8_missing_data_skip none "D" oneTeamRow [] (by decide)

/-- C9 counterexample: `socRow` is a soccer row (league
`SOCCER-EPL`) with a 4th moneyline entry, yet no draw record is
emitted: with only two spread texts, `spread_prices[2]` raises inside
the second moneyline record, before the draw block runs — the row's
whole output is one team moneyline record. -/
theorem C9_soccer_draw_counterexample :
    soccerIn (sportLeague socRow.sport_href) = true ∧
    socRow.moneyline_prices.length = 4 ∧
    (processRow none "D" socRow).1.map (fun i => (i.side, i.team)) =
      [("A", "A")] := by decide

/-- C9 amended: for a row with ≥2 team names, ≥2 moneyline texts and
≥3 spread texts (so the records preceding the draw block can be
built), and whose team names are not themselves the string `"draw"`,
the draw records in the output are exactly one record — side and
team `"draw"`, `spread = 0`, price the 4th moneyline text with every
`"DRAW\n"` occurrence removed and stripped — when the league contains
`SOCCER` and a 4th moneyline entry exists, and none otherwise; in
particular a non-soccer league never yields one. -/
theorem C9_draw_amended (fb : Option String) (d : String) (r : Row)
    (h2 : 2 ≤ r.team_names.length) (hm : 2 ≤ r.moneyline_prices.length)
    (hs : 3 ≤ r.spread_prices.length)
    (ht1 : r.team_names.getD 0 "" ≠ "draw")
    (ht2 : r.team_names.getD 1 "" ≠ "draw") :
    (processRow fb d r).1.filter
        (fun i => i.side == "draw" && i.team == "draw") =
      (if soccerIn (sportLeague r.sport_href) ∧ 4 ≤ r.moneyline_prices.length
       then [mkItem (sportLeague r.sport_href) d (r.team_names.getD 0 "")
          (r.team_names.getD 1 "") (rowPeriod fb r) "moneyline"
          (strip (String.mk (stripDraw (r.moneyline_prices.getD 3 "").data)))
          "draw" "draw" 0]
       else []) := by
  have ht1' : r.team_names[0]?.getD "" ≠ "draw" := by
    simpa [List.getD] using ht1
  have ht2' : r.team_names[1]?.getD "" ≠ "draw" := by
    simpa [List.getD] using ht2
  have f1 : (r.team_names[0]?.getD "" == "draw") = false :=
    beq_eq_false_iff_ne.mpr ht1'
  have f2 : (r.team_names[1]?.getD "" == "draw") = false :=
    beq_eq_false_iff_ne.mpr ht2'
  rcases Nat.lt_or_ge r.moneyline_prices.length 3 with hlt | hge
  · have hm2 : r.moneyline_prices.length = 2 := by omega
    rw [processRow_ml2 fb d r h2 hm2 (by omega)]
    have hg : ¬(soccerIn (sportLeague r.sport_href) = true ∧
        4 ≤ r.moneyline_prices.length) := by
      rintro ⟨-, h4⟩
      omega
    rw [if_neg hg]
    simp [mkItem, f1, f2, ht1', ht2']
  · rw [processRow_full fb d r h2 hge hs]
    by_cases hdr : soccerIn (sportLeague r.sport_href) = true ∧
        4 ≤ r.moneyline_prices.length
    · simp only [if_pos hdr]
      by_cases h3t : 3 ≤ r.total_prices.length
      · simp only [if_pos h3t]
        simp [mkItem, f1, f2, ht1', ht2']
      · simp only [if_neg h3t]
        by_cases h2t : 2 ≤ r.total_prices.length
        · simp only [if_pos h2t]
          simp [mkItem, f1, f2, ht1', ht2']
        · simp only [if_neg h2t]
          simp [mkItem, f1, f2, ht1', ht2']
    · simp only [if_neg hdr]
      by_cases h3t : 3 ≤ r.total_prices.length
      · simp only [if_pos h3t]
        simp [mkItem, f1, f2, ht1', ht2']
      · simp only [if_neg h3t]
        by_cases h2t : 2 ≤ r.total_prices.length
        · simp only [if_pos h2t]
          simp [mkItem, f1, f2, ht1', ht2']
        · simp only [if_neg h2t]
          simp [mkItem, f1, f2, ht1', ht2']

/-- C9 witness: the amended theorem applied to the complete soccer
row: the single draw record, with the `"DRAW\n"` marker stripped from
its price text `"DRAW\n(+240)"` (note the remaining parentheses: the
draw price is not passed through `extract_price`). -/
theorem C9_draw_amended_witness :
    (processRow none "D" fullSocRow).1.filter
        (fun i => i.side == "draw" && i.team == "draw") =
      [mkItem "SOCCER-EPL" "D" "A" "B" "FULL GAME" "moneyline" "(+240)"
        "draw" "draw" 0] := by
  have h := C9_draw_amended none "D" fullSocRow
    (by decide) (by decide) (by decide) (by decide) (by decide)
  rw [h]
  have hg : soccerIn (sportLeague fullSocRow.sport_href) = true ∧
      4 ≤ fullSocRow.moneyline_prices.length := by decide
  rw [if_pos hg]
  have h1 : sportLeague fullSocRow.sport_href = "SOCCER-EPL" := by decide
  have h2 : strip (String.mk
      (stripDraw (fullSocRow.moneyline_prices.getD 3 "").data)) = "(+240)" := by
    decide
  rw [h1, h2]
  rfl

/-- C3: the code's period lookup is a leftover-debug document-wide
search.  On a row whose own badge reads `"1ST HALF"`, with a
driver-wide `FINAL` badge present, every emitted record's `period` is
`"FINAL"` — not the row badge's trimmed text — and with no
driver-wide `FINAL` badge the period is `"FULL GAME"` although the
row has a badge. -/
theorem C3_period_ignores_row_badge :
    badgeRow.badge = some "1ST HALF" ∧
    strip "1ST HALF" = "1ST HALF" ∧
    rowPeriod (some "FINAL") badgeRow = "FINAL" ∧
    rowPeriod none badgeRow = "FULL GAME" ∧
    (processRow (some "FINAL") "D" badgeRow).1.map Item.period =
      ["FINAL", "FINAL", "FINAL", "FINAL"] := by decide

/-- C4 counterexample: with the date control holding `"2025/01/01"`
(non-empty, but not `%m-%d-%Y`), `strptime` raises `ValueError`, which
is not a `TimeoutException`: it escapes `get_event_date` and then the
cycle function, whose outer handler also catches only
`TimeoutException`. -/
theorem C4_unparseable_date_counterexample :
    (get_event_date clk1 (Retrieval.value (some "2025/01/01")) none).toOption =
      none ∧
    (parse_game_data
        ⟨clk1, Retrieval.value (some "2025/01/01"), some [simpleRow], none⟩
        none).toOption = none := by decide

/-- C4 amended: with an empty cache the resolver returns the current
UTC fallback on a retrieval timeout, an absent attribute, or an empty
value, and the formatted parse result on a value `strptime` accepts;
but a non-empty value whose text fails to parse raises an error that
propagates out of the resolver and out of `parse_game_data` (both
handlers catch only `TimeoutException`). -/
theorem C4_date_resolver_amended (clk : Clock) (v : String) (hv : ¬ v = "")
    (hp : strptime_mdY_HMS (v ++ " " ++ clk.nowHMS).data = none) :
    get_event_date clk Retrieval.timeout none =
      Except.ok (clk.utcISO, some clk.utcISO) ∧
    get_event_date clk (Retrieval.value none) none =
      Except.ok (clk.utcISO, some clk.utcISO) ∧
    get_event_date clk (Retrieval.value (some "")) none =
      Except.ok (clk.utcISO, some clk.utcISO) ∧
    (∀ w dt, ¬ w = "" →
      strptime_mdY_HMS (w ++ " " ++ clk.nowHMS).data = some dt →
      get_event_date clk (Retrieval.value (some w)) none =
        Except.ok (fmtISO dt, some (fmtISO dt))) ∧
    get_event_date clk (Retrieval.value (some v)) none = Except.error () ∧
    (∀ rows fb,
      parse_game_data ⟨clk, Retrieval.value (some v), rows, fb⟩ none =
        Except.error ()) := by
  have herr : get_event_date clk (Retrieval.value (some v)) none =
      Except.error () := by
    simp only [get_event_date, truthy, Bool.false_eq_true, if_false,
      Option.getD_some]
    rw [if_neg hv, hp]
  refine ⟨rfl, rfl, rfl, ?_, herr, ?_⟩
  · intro w dt hw hdt
    simp only [get_event_date, truthy, Bool.false_eq_true, if_false,
      Option.getD_some]
    rw [if_neg hw, hdt]
  · intro rows fb
    simp only [parse_game_data, herr]

/-- C4 witness: the amended theorem at a concrete clock and the
unparseable control value `"2025/01/01"`. -/
theorem C4_date_resolver_amended_witness :
    get_event_date clk1 Retrieval.timeout none =
      Except.ok ("2025-06-01T00:00:00+00:00", some "2025-06-01T00:00:00+00:00") ∧
    get_event_date clk1 (Retrieval.value (some "2025/01/01")) none =
      Except.error () := by
  have h := C4_date_resolver_amended clk1 "2025/01/01" (by decide) (by decide)
  exact ⟨h.1, h.2.2.2.2.1⟩

/-- C5 counterexample: two cycles, each navigating afresh, the date
control reading `01-02-2025` in the first and `01-03-2025` in the
second.  Every record of both cycles — and the final cache — carries
the first cycle's date: the cache survives the second navigation,
although a fresh resolution in the second cycle would produce the new
date. -/
theorem C5_cache_survives_navigation_counterexample :
    ((runLoop [env1, env2] none).toOption.map
        (fun p => (p.1.map (List.map Item.event_date_utc), p.2))) =
      some ([["2025-01-02T12:00:00+00:00", "2025-01-02T12:00:00+00:00",
              "2025-01-02T12:00:00+00:00", "2025-01-02T12:00:00+00:00"],
             ["2025-01-02T12:00:00+00:00", "2025-01-02T12:00:00+00:00",
              "2025-01-02T12:00:00+00:00", "2025-01-02T12:00:00+00:00"]],
            some "2025-01-02T12:00:00+00:00") ∧
    get_event_date clk2 (Retrieval.value (some "01-03-2025")) none =
      Except.ok ("2025-01-03T13:00:00+00:00",
        some "2025-01-03T13:00:00+00:00") ∧
    ("2025-01-02T12:00:00+00:00" : String) ≠ "2025-01-03T13:00:00+00:00" := by
  constructor
  · decide
  constructor
  · have h : strptime_mdY_HMS ("01-03-2025" ++ " " ++ clk2.nowHMS).data =
        some ⟨2025, 1, 3, 13, 0, 0⟩ := by decide
    simp only [get_event_date, truthy, Bool.false_eq_true, if_false,
      Option.getD_some]
    rw [if_neg (by decide), h]
    have hf : fmtISO ⟨2025, 1, 3, 13, 0, 0⟩ = "2025-01-03T13:00:00+00:00" := by
      decide
    simp [hf]
  · decide

/-- C5 amended: the event date is memoized on the scraper object, not
per navigation: once the cache holds a (non-empty) value, every later
`get_event_date` call returns it unchanged whatever the page would
now report, and the main loop never resets it — it survives every
navigation for the scraper's lifetime. -/
theorem C5_memoized_never_invalidated (d : String) (hd : ¬ d = "") :
    (∀ clk retr, get_event_date clk retr (some d) = Except.ok (d, some d)) ∧
    (∀ envs, ∃ outs, runLoop envs (some d) = Except.ok (outs, some d)) := by
  have hget : ∀ clk retr, get_event_date clk retr (some d) =
      Except.ok (d, some d) := by
    intro clk retr
    have ht : truthy (some d) = true := by
      simp [truthy, hd]
    simp [get_event_date, ht]
  refine ⟨hget, ?_⟩
  have hparse : ∀ e : Env, ∃ items,
      parse_game_data e (some d) = Except.ok (items, some d) := by
    intro e
    obtain ⟨clk, retr, rowsR, fb⟩ := e
    simp only [parse_game_data, hget]
    cases rowsR with
    | none => exact ⟨[], rfl⟩
    | some rows => exact ⟨_, rfl⟩
  intro envs
  induction envs with
  | nil => exact ⟨[], rfl⟩
  | cons e rest ih =>
    obtain ⟨items, hpe⟩ := hparse e
    obtain ⟨outs, ho⟩ := ih
    exact ⟨items :: outs, by simp only [runLoop, hpe, ho]⟩

/-- C5 witness: the amended theorem at the cached value `"X"` and the
two example cycles. -/
theorem C5_memoized_never_invalidated_witness :
    get_event_date clk1 Retrieval.timeout (some "X") =
      Except.ok ("X", some "X") ∧
    (∃ outs, runLoop [env1, env2] (some "X") = Except.ok (outs, some "X")) := by
  have h := C5_memoized_never_invalidated "X" (by decide)
  exact ⟨h.1 clk1 Retrieval.timeout, h.2 [env1, env2]⟩
